import Mathlib

/-
Shallow embedding of the CHIP-8 interpreter from chip8.c / chip8.h.

Machine state mirrors `struct Chip8`: the uint8_t arrays (ram, screen, v,
keys) and the uint16_t arrays (stack) are modelled as total functions
`Nat → Nat` holding byte/word values; scalar registers are `Nat`.  C's
integer conversions are made explicit: a store of an arithmetic result into
a uint8_t field is taken modulo 256, into a uint16_t field modulo 65536;
same-width copies (uint8_t to uint8_t, uint16_t to uint16_t) copy the value
unchanged, exactly as in C.

External effects are made explicit:
  * `rand()` (used by RND) is a supplied value `ExtIn.rand`;
  * the `key_handle` callback polled by LD Vx,K is modelled by the list
    `ExtIn.polls` of successive keypad snapshots it writes into `chip->keys`
    (main.c's handler mutates only the `keys` array); an exhausted list
    models the busy-poll never observing a key (the C loop spins forever),
    returned as `Outcome.spin`;
  * `chip8_cpu_bdi` calls `abort()`; dispatch returns `Outcome.bad op`,
    the bad-instruction error carrying the offending opcode.
-/

structure Chip8 where
  ram : Nat → Nat
  screen : Nat → Nat
  stack : Nat → Nat
  v : Nat → Nat
  i : Nat
  dt : Nat
  st : Nat
  sp : Nat
  pc : Nat
  keys : Nat → Nat

structure ExtIn where
  rand : Nat
  polls : List (Nat → Nat)

inductive Outcome where
  | ok : Chip8 → Outcome
  | bad : Nat → Outcome
  | spin : Outcome

/-- Pointwise array update, modelling `a[k] = x` on the C arrays. -/
def upd (f : Nat → Nat) (k x : Nat) : Nat → Nat :=
  fun j => if j = k then x else f j

/-- Conversion of an int value to uint8_t, i.e. reduction modulo 256
of a possibly negative difference (used by `-=` on uint8_t). -/
def sub8 (a b : Nat) : Nat := (((a : Int) - (b : Int)) % 256).toNat

-- The opcode field macros NNN, N, KK, X, Y from chip8.c.

def opNNN (op : Nat) : Nat := op &&& 0xFFF

def opN (op : Nat) : Nat := op &&& 0xF

def opKK (op : Nat) : Nat := op &&& 0xFF

def opX (op : Nat) : Nat := (op &&& 0xF00) >>> 8

def opY (op : Nat) : Nat := (op &&& 0xF0) >>> 4

-- Jumps

/-- 1NNN | JMP addr -/
def chip8_cpu_jmp (s : Chip8) (op : Nat) : Chip8 :=
  { s with pc := opNNN op }

/-- BNNN | JMP V0, addr -/
def chip8_cpu_jmpv0 (s : Chip8) (op : Nat) : Chip8 :=
  { s with pc := (opNNN op + s.v 0) % 65536 }

-- Subroutines

/-- 2NNN | CALL addr: `stack[sp] = pc; sp++; pc = NNN`. -/
def chip8_cpu_call (s : Chip8) (op : Nat) : Chip8 :=
  { s with stack := upd s.stack s.sp s.pc,
           sp := (s.sp + 1) % 256,
           pc := opNNN op }

/-- 00EE | RET: `sp--; pc = stack[sp]` (uint8_t decrement of sp). -/
def chip8_cpu_ret (s : Chip8) (op : Nat) : Chip8 :=
  { s with sp := (s.sp + 255) % 256,
           pc := s.stack ((s.sp + 255) % 256) }

-- Skips

/-- 3XNN | SE Vx, byte -/
def chip8_cpu_se (s : Chip8) (op : Nat) : Chip8 :=
  { s with pc := (s.pc + if s.v (opX op) = opKK op then 2 else 0) % 65536 }

/-- 4XNN | SNE Vx, byte -/
def chip8_cpu_sne (s : Chip8) (op : Nat) : Chip8 :=
  { s with pc := (s.pc + if s.v (opX op) ≠ opKK op then 2 else 0) % 65536 }

/-- 5XY0 | SE Vx, Vy -/
def chip8_cpu_ser (s : Chip8) (op : Nat) : Chip8 :=
  { s with pc := (s.pc + if s.v (opX op) = s.v (opY op) then 2 else 0) % 65536 }

/-- 9XY0 | SNE Vx, Vy -/
def chip8_cpu_sner (s : Chip8) (op : Nat) : Chip8 :=
  { s with pc := (s.pc + if s.v (opX op) ≠ s.v (opY op) then 2 else 0) % 65536 }

-- Data Register

/-- 6XKK | LD Vx, byte -/
def chip8_cpu_ld (s : Chip8) (op : Nat) : Chip8 :=
  { s with v := upd s.v (opX op) (opKK op) }

/-- 8XY0 | LD Vx, Vy -/
def chip8_cpu_ldr (s : Chip8) (op : Nat) : Chip8 :=
  { s with v := upd s.v (opX op) (s.v (opY op)) }

/-- 8XY1 | OR Vx, Vy -/
def chip8_cpu_or (s : Chip8) (op : Nat) : Chip8 :=
  { s with v := upd s.v (opX op) (s.v (opX op) ||| s.v (opY op)) }

/-- 8XY3 | XOR Vx, Vy -/
def chip8_cpu_xor (s : Chip8) (op : Nat) : Chip8 :=
  { s with v := upd s.v (opX op) (s.v (opX op) ^^^ s.v (opY op)) }

/-- 8XY2 | AND Vx, Vy -/
def chip8_cpu_and (s : Chip8) (op : Nat) : Chip8 :=
  { s with v := upd s.v (opX op) (s.v (opX op) &&& s.v (opY op)) }

/-- 7XKK | ADD Vx, byte (uint8_t wrap). -/
def chip8_cpu_add (s : Chip8) (op : Nat) : Chip8 :=
  { s with v := upd s.v (opX op) ((s.v (opX op) + opKK op) % 256) }

/-- 8XY4 | ADD Vx, Vy: the overflow check writes V[0xF] FIRST, then
`v[X] += v[Y]` reads the (possibly clobbered) registers. -/
def chip8_cpu_addr (s : Chip8) (op : Nat) : Chip8 :=
  let s1 := { s with
    v := upd s.v 15 (if s.v (opX op) + s.v (opY op) > 255 then 1 else 0) }
  { s1 with v := upd s1.v (opX op) ((s1.v (opX op) + s1.v (opY op)) % 256) }

/-- 8XY5 | SUB Vx, Vy: just `v[X] -= v[Y]`; no flag is written. -/
def chip8_cpu_sub (s : Chip8) (op : Nat) : Chip8 :=
  { s with v := upd s.v (opX op) (sub8 (s.v (opX op)) (s.v (opY op))) }

/-- 8XY7 | SUBN Vx, Vy: flag first, then `v[X] = v[Y] - v[X]`. -/
def chip8_cpu_subn (s : Chip8) (op : Nat) : Chip8 :=
  let s1 := { s with
    v := upd s.v 15 (if s.v (opY op) > s.v (opX op) then 1 else 0) }
  { s1 with v := upd s1.v (opX op) (sub8 (s1.v (opY op)) (s1.v (opX op))) }

/-- 8XY6 | SHR Vx: `v[0xF] = (v[X] & 0x0F) >> 3 == 1 ? 1 : 0; v[X] >>= 1`. -/
def chip8_cpu_shr (s : Chip8) (op : Nat) : Chip8 :=
  let s1 := { s with
    v := upd s.v 15 (if (s.v (opX op) &&& 0xF) >>> 3 = 1 then 1 else 0) }
  { s1 with v := upd s1.v (opX op) (s1.v (opX op) >>> 1) }

/-- 8XYE | SHL Vx: `v[0xF] = v[X] >> 15 == 1 ? 1 : 0; v[X] <<= 1`. -/
def chip8_cpu_shl (s : Chip8) (op : Nat) : Chip8 :=
  let s1 := { s with
    v := upd s.v 15 (if s.v (opX op) >>> 15 = 1 then 1 else 0) }
  { s1 with v := upd s1.v (opX op) ((s1.v (opX op) <<< 1) % 256) }

/-- CXKK | RND Vx, byte: `v[X] = (uint8_t) rand() & KK`. -/
def chip8_cpu_rnd (ext : ExtIn) (s : Chip8) (op : Nat) : Chip8 :=
  { s with v := upd s.v (opX op) ((ext.rand % 256) &&& opKK op) }

-- I

/-- ANNN | LD I, addr -/
def chip8_cpu_ldi (s : Chip8) (op : Nat) : Chip8 :=
  { s with i := opNNN op }

/-- FX1E | ADD I, Vx (uint16_t wrap). -/
def chip8_cpu_addi (s : Chip8) (op : Nat) : Chip8 :=
  { s with i := (s.i + s.v (opX op)) % 65536 }

-- Storage

/-- FX55 | LD [I], Vx: `for (i = 0; i <= X; i++) ram[I + i] = v[i];
I += X + 1`. -/
def chip8_cpu_ldir (s : Chip8) (op : Nat) : Chip8 :=
  { s with
    ram := (List.range (opX op + 1)).foldl
             (fun r k => upd r (s.i + k) (s.v k)) s.ram,
    i := (s.i + opX op + 1) % 65536 }

/-- FX65 | LD Vx, [I]: `for (i = 0; i <= X; i++) v[i] = ram[I + i];
I += X + 1`. -/
def chip8_cpu_ldri (s : Chip8) (op : Nat) : Chip8 :=
  { s with
    v := (List.range (opX op + 1)).foldl
           (fun f k => upd f k (s.ram (s.i + k))) s.v,
    i := (s.i + opX op + 1) % 65536 }

-- Drawing

/-- One inner-loop iteration of DXYN for column `j` of sprite row `i`.
`v[X]`, `v[Y]` are re-read from the current state at every use, exactly as
in the C source (so a collision write to `v[0xF]` mid-draw shifts later
cells when X or Y is 0xF); the collision test reads the cell before the
XOR write, and the XOR's cell index is recomputed after the flag write. -/
def drwCell (s : Chip8) (op : Nat) (i j byte : Nat) : Chip8 :=
  if byte &&& (0x80 >>> j) ≠ 0 then
    let s1 :=
      if s.screen (s.v (opX op) + j + (s.v (opY op) + i) * 64) ≠ 0 then
        { s with v := upd s.v 15 1 }
      else s
    let idx := s1.v (opX op) + j + (s1.v (opY op) + i) * 64
    { s1 with screen := upd s1.screen idx ((s1.screen idx) ^^^ 1) }
  else s

/-- DXYN | DRW Vx, Vy, nibble: clear V[0xF], then for each of the N sprite
rows read `byte = ram[I + i]` and XOR its set bits onto the screen. -/
def chip8_cpu_drw (s : Chip8) (op : Nat) : Chip8 :=
  (List.range (opN op)).foldl
    (fun t i =>
      (List.range 8).foldl (fun t2 j => drwCell t2 op i j (t.ram (t.i + i))) t)
    { s with v := upd s.v 15 0 }

/-- 00E0 | CLS: memset the whole screen to 0. -/
def chip8_cpu_cls (s : Chip8) (op : Nat) : Chip8 :=
  { s with screen := fun _ => 0 }

-- Font

/-- FX29 | LD F, Vx: `I = v[X] * CHAR_SIZE` (CHAR_SIZE = 5). -/
def chip8_cpu_ldf (s : Chip8) (op : Nat) : Chip8 :=
  { s with i := (s.v (opX op) * 5) % 65536 }

-- Keypad

/-- The scan `for (i = 0; i < 16; i++) if (keys[i] != 0) ...` inside
LD Vx,K: returns the first index (counting `count` slots from `start`)
whose key is pressed. -/
def findKeyFrom (keys : Nat → Nat) : Nat → Nat → Option Nat
  | 0, _ => none
  | count + 1, start =>
      if keys start ≠ 0 then some start else findKeyFrom keys count (start + 1)

/-- FX0A | LD Vx, K: busy-poll `key_handle` (each poll overwrites the
`keys` array with the next snapshot) until some key is pressed, then store
its index in `v[X]`.  `none` models the C loop spinning forever. -/
def chip8_cpu_ldk : List (Nat → Nat) → Chip8 → Nat → Option Chip8
  | [], _, _ => none
  | p :: ps, s, op =>
      let s1 := { s with keys := p }
      match findKeyFrom s1.keys 16 0 with
      | some idx => some { s1 with v := upd s1.v (opX op) idx }
      | none => chip8_cpu_ldk ps s1 op

/-- EX9E | SKP Vx -/
def chip8_cpu_skp (s : Chip8) (op : Nat) : Chip8 :=
  { s with pc := (s.pc + if s.keys (s.v (opX op)) ≠ 0 then 2 else 0) % 65536 }

/-- EXA1 | SKNP Vx -/
def chip8_cpu_sknp (s : Chip8) (op : Nat) : Chip8 :=
  { s with pc := (s.pc + if s.keys (s.v (opX op)) = 0 then 2 else 0) % 65536 }

-- BCD

/-- FX33 | BCD Vx -/
def chip8_cpu_bcd (s : Chip8) (op : Nat) : Chip8 :=
  { s with
    ram := upd (upd (upd s.ram s.i (s.v (opX op) % 1000 / 100))
                 (s.i + 1) (s.v (opX op) % 100 / 10))
             (s.i + 2) (s.v (opX op) % 10) }

-- Timers

/-- FX07 | LD Vx, DT -/
def chip8_cpu_ldrdt (s : Chip8) (op : Nat) : Chip8 :=
  { s with v := upd s.v (opX op) s.dt }

/-- FX15 | LD DT, Vx -/
def chip8_cpu_lddtr (s : Chip8) (op : Nat) : Chip8 :=
  { s with dt := s.v (opX op) }

/-- FX18 | LD ST, Vx -/
def chip8_cpu_ldstr (s : Chip8) (op : Nat) : Chip8 :=
  { s with st := s.v (opX op) }

-- Opcode tables / dispatch

/-- The 00-- group (`chip8_cpu_func` in the source). -/
def chip8_cpu_func (s : Chip8) (op : Nat) : Outcome :=
  match op &&& 0xFF with
  | 0xE0 => .ok (chip8_cpu_cls s op)
  | 0xEE => .ok (chip8_cpu_ret s op)
  | _ => .bad op

/-- The 8XY- group, the 16-entry table `chip8_op_arith` indexed by N:
slots 0-7 and 0xE hold handlers, slots 8-0xD and 0xF hold `chip8_cpu_bdi`. -/
def chip8_cpu_arith (s : Chip8) (op : Nat) : Outcome :=
  match op &&& 0xF with
  | 0 => .ok (chip8_cpu_ldr s op)
  | 1 => .ok (chip8_cpu_or s op)
  | 2 => .ok (chip8_cpu_and s op)
  | 3 => .ok (chip8_cpu_xor s op)
  | 4 => .ok (chip8_cpu_addr s op)
  | 5 => .ok (chip8_cpu_sub s op)
  | 6 => .ok (chip8_cpu_shr s op)
  | 7 => .ok (chip8_cpu_subn s op)
  | 14 => .ok (chip8_cpu_shl s op)
  | _ => .bad op

/-- The EX-- group (`chip8_cpu_key` in the source). -/
def chip8_cpu_keygrp (s : Chip8) (op : Nat) : Outcome :=
  match op &&& 0xFF with
  | 0x9E => .ok (chip8_cpu_skp s op)
  | 0xA1 => .ok (chip8_cpu_sknp s op)
  | _ => .bad op

/-- The FX-- group (`chip8_cpu_vx` in the source). -/
def chip8_cpu_vx (ext : ExtIn) (s : Chip8) (op : Nat) : Outcome :=
  match op &&& 0xFF with
  | 0x07 => .ok (chip8_cpu_ldrdt s op)
  | 0x0A =>
      match chip8_cpu_ldk ext.polls s op with
      | some t => .ok t
      | none => .spin
  | 0x15 => .ok (chip8_cpu_lddtr s op)
  | 0x18 => .ok (chip8_cpu_ldstr s op)
  | 0x1E => .ok (chip8_cpu_addi s op)
  | 0x29 => .ok (chip8_cpu_ldf s op)
  | 0x33 => .ok (chip8_cpu_bcd s op)
  | 0x55 => .ok (chip8_cpu_ldir s op)
  | 0x65 => .ok (chip8_cpu_ldri s op)
  | _ => .bad op

/-- The top-level 16-entry table `chip8_op_all`, indexed by
`(op & 0xF000) >> 12` (that index is always < 16; the final arm is
unreachable). -/
def chip8_exec (ext : ExtIn) (op : Nat) (s : Chip8) : Outcome :=
  match (op &&& 0xF000) >>> 12 with
  | 0 => chip8_cpu_func s op
  | 1 => .ok (chip8_cpu_jmp s op)
  | 2 => .ok (chip8_cpu_call s op)
  | 3 => .ok (chip8_cpu_se s op)
  | 4 => .ok (chip8_cpu_sne s op)
  | 5 => .ok (chip8_cpu_ser s op)
  | 6 => .ok (chip8_cpu_ld s op)
  | 7 => .ok (chip8_cpu_add s op)
  | 8 => chip8_cpu_arith s op
  | 9 => .ok (chip8_cpu_sner s op)
  | 10 => .ok (chip8_cpu_ldi s op)
  | 11 => .ok (chip8_cpu_jmpv0 s op)
  | 12 => .ok (chip8_cpu_rnd ext s op)
  | 13 => .ok (chip8_cpu_drw s op)
  | 14 => chip8_cpu_keygrp s op
  | 15 => chip8_cpu_vx ext s op
  | _ => .bad op

/-- `chip8_cycle`: run the key-handle callback `h`, fetch the big-endian
opcode at `[pc, pc+1]` (stored into a uint16_t), advance `pc` by 2, then
dispatch through `chip8_op_all`. -/
def chip8_cycle (h : Chip8 → Chip8) (ext : ExtIn) (s0 : Chip8) : Outcome :=
  let s := h s0
  let op := (((s.ram s.pc) <<< 8) ||| s.ram (s.pc + 1)) % 65536
  chip8_exec ext op { s with pc := (s.pc + 2) % 65536 }

/-- The 16-glyph, 5-bytes-per-glyph font table from chip8.c. -/
def fontData : List Nat :=
  [0xF0, 0x90, 0x90, 0x90, 0xF0,
   0x20, 0x60, 0x20, 0x20, 0x70,
   0xF0, 0x10, 0xF0, 0x80, 0xF0,
   0xF0, 0x10, 0xF0, 0x10, 0xF0,
   0x90, 0x90, 0xF0, 0x10, 0x10,
   0xF0, 0x80, 0xF0, 0x10, 0xF0,
   0xF0, 0x80, 0xF0, 0x90, 0xF0,
   0xF0, 0x10, 0x20, 0x40, 0x40,
   0xF0, 0x90, 0xF0, 0x90, 0xF0,
   0xF0, 0x90, 0xF0, 0x10, 0xF0,
   0xF0, 0x90, 0xF0, 0x90, 0x90,
   0xE0, 0x90, 0xE0, 0x90, 0xE0,
   0xF0, 0x80, 0x80, 0x80, 0xF0,
   0xE0, 0x90, 0x90, 0x90, 0xE0,
   0xF0, 0x80, 0xF0, 0x80, 0xF0,
   0xF0, 0x80, 0xF0, 0x80, 0x80]

/-- `chip8_create`: zero the whole struct, set `pc = 0x200`, copy the font
into ram at FONT_START = 0 (beyond the 80 font bytes ram stays zero). -/
def chip8_create : Chip8 :=
  { ram := fun a => fontData.getD a 0,
    screen := fun _ => 0,
    stack := fun _ => 0,
    v := fun _ => 0,
    i := 0, dt := 0, st := 0, sp := 0,
    pc := 0x200,
    keys := fun _ => 0 }

/-- `chip8_reset`: `pc = 0x200`, zero i/dt/st/sp and the v, stack and
screen arrays; ram and keys are untouched. -/
def chip8_reset (s : Chip8) : Chip8 :=
  { s with pc := 0x200, i := 0, dt := 0, st := 0, sp := 0,
           v := fun _ => 0,
           stack := fun _ => 0,
           screen := fun _ => 0 }

-- Auxiliary notions used by the verification

/-- The display invariant: each of the 2048 screen cells is 0 or 1. -/
def DisplayInv (s : Chip8) : Prop :=
  ∀ p : Fin 2048, s.screen p.val = 0 ∨ s.screen p.val = 1

/-- One XOR-blit of a screen cell together with the sticky collision flag,
acting on a (screen, flag) pair. -/
def touch (p : (Nat → Nat) × Nat) (idx : Nat) : (Nat → Nat) × Nat :=
  (upd p.1 idx ((p.1 idx) ^^^ 1), if p.1 idx ≠ 0 then 1 else p.2)

/-- Fold of `touch` over a list of cell indices. -/
def touchAll (p : (Nat → Nat) × Nat) (l : List Nat) : (Nat → Nat) × Nat :=
  l.foldl touch p

/-- Screen indices whose sprite bit is set in row `i` of a draw at
position (vx, vy). -/
def rowTouches (vx vy byte i : Nat) : List Nat :=
  ((List.range 8).filter (fun j => byte &&& (0x80 >>> j) != 0)).map
    (fun j => vx + j + (vy + i) * 64)

/-- All screen indices touched by an n-row draw of the sprite at
`ram[ii..]`, in execution order. -/
def spriteTouches (vx vy ii : Nat) (ram : Nat → Nat) : Nat → List Nat
  | 0 => []
  | n + 1 => spriteTouches vx vy ii ram n ++ rowTouches vx vy (ram (ii + n)) n

/-- Recognizer for the bad-instruction outcome. -/
def isBadOutcome : Outcome → Bool
  | Outcome.bad _ => true
  | _ => false

-- Concrete states and inputs used by counterexamples and witnesses

/-- A machine whose arrays are all zero and whose pc is 0x200. -/
def chipZero : Chip8 :=
  { ram := fun _ => 0, screen := fun _ => 0, stack := fun _ => 0,
    v := fun _ => 0, i := 0, dt := 0, st := 0, sp := 0, pc := 0x200,
    keys := fun _ => 0 }

/-- No pending random value or key polls. -/
def ext0 : ExtIn := { rand := 0, polls := [] }

/-- V0 = 5, V15 = 7, all other registers 0. -/
def addrSt : Chip8 :=
  { chipZero with v := fun k => if k = 0 then 5 else if k = 15 then 7 else 0 }

/-- I = 768, V0 = 5, V1 = 7. -/
def ldirSt : Chip8 :=
  { chipZero with
    i := 768,
    v := fun k => if k = 0 then 5 else if k = 1 then 7 else 0 }

/-- V0 = 5, V1 = 3. -/
def subSt : Chip8 :=
  { chipZero with v := fun k => if k = 0 then 5 else if k = 1 then 3 else 0 }

/-- V0 = 1 (odd, so SHR should report LSB 1). -/
def shrSt : Chip8 :=
  { chipZero with v := fun k => if k = 0 then 1 else 0 }

/-- V0 = 128 (bit 7 set, so SHL should report MSB 1). -/
def shlSt : Chip8 :=
  { chipZero with v := fun k => if k = 0 then 128 else 0 }

/-- I = 768 with a one-row sprite 0x80 there; V0 = 3, V1 = 2. -/
def drwSt : Chip8 :=
  { chipZero with
    i := 768,
    ram := fun a => if a = 768 then 0x80 else 0,
    v := fun k => if k = 0 then 3 else if k = 1 then 2 else 0 }

/-- I = 768 with a one-row sprite 0xC0 there; all registers 0 (used with
DRW VF,V0: the draw coordinates involve the flag register). -/
def drwFSt : Chip8 :=
  { chipZero with
    i := 768,
    ram := fun a => if a = 768 then 0xC0 else 0 }

/-- ram holds the opcode 0x2234 (CALL 0x234) at pc = 0x200. -/
def callSt : Chip8 :=
  { chipZero with
    ram := fun a => if a = 0x200 then 0x22 else if a = 0x201 then 0x34 else 0 }

/-- A keypad snapshot with exactly key 3 pressed. -/
def pollA : Nat → Nat := fun k => if k = 3 then 1 else 0

/-- The state LD V0,K reaches from `chipZero` on the single poll `pollA`. -/
def ldkRes : Chip8 :=
  { chipZero with keys := pollA, v := upd chipZero.v 0 3 }

-- Basic lemmas about pointwise updates

theorem upd_same (f : Nat → Nat) (k x : Nat) : upd f k x k = x := by
  simp [upd]

theorem upd_ne (f : Nat → Nat) (k x j : Nat) (h : j ≠ k) : upd f k x j = f j := by
  simp [upd, h]

theorem upd_upd_same (f : Nat → Nat) (k a b : Nat) :
    upd (upd f k a) k b = upd f k b := by
  funext j
  by_cases h : j = k <;> simp [upd, h]

theorem upd_self (f : Nat → Nat) (k : Nat) : upd f k (f k) = f := by
  funext j
  by_cases h : j = k <;> simp [upd, h]

/-- C1: SHR is claimed to set VF to the pre-shift least-significant bit and
SHL to the pre-shift bit 7.  The code instead computes
`(v[X] & 0x0F) >> 3` (bit 3) for SHR and `v[X] >> 15` (always 0 for an
8-bit register) for SHL: with V0 = 1 (LSB set) SHR leaves VF = 0, with
V0 = 8 (LSB clear) SHR sets VF = 1, and with V0 = 128 (bit 7 set) SHL
leaves VF = 0.  The shifted values themselves are as specified. -/
theorem c1_shift_flag_divergence :
    (chip8_cpu_shr shrSt 0x8016).v 15 = 0 ∧ shrSt.v 0 = 1 ∧
    (chip8_cpu_shr shrSt 0x8016).v 0 = 0 ∧
    (chip8_cpu_shr { chipZero with v := fun k => if k = 0 then 8 else 0 } 0x8016).v 15 = 1 ∧
    (chip8_cpu_shl shlSt 0x800E).v 15 = 0 ∧ shlSt.v 0 = 128 ∧
    (chip8_cpu_shl shlSt 0x800E).v 0 = 0 :=
  ⟨rfl, rfl, rfl, rfl, rfl, rfl, rfl⟩

/-- C2 (amended): for register indices other than the flag register
(x ≠ 0xF and y ≠ 0xF), ADD Vx,Vy sets VF to 1 exactly when the unsigned
sum exceeds 255 and stores the sum mod 256 in Vx. -/
theorem c2_addr_flag_and_sum (s : Chip8) (op : Nat)
    (hx : opX op ≠ 15) (hy : opY op ≠ 15) :
    (chip8_cpu_addr s op).v 15 =
      (if s.v (opX op) + s.v (opY op) > 255 then 1 else 0) ∧
    (chip8_cpu_addr s op).v (opX op) =
      (s.v (opX op) + s.v (opY op)) % 256 := by
  have hx15 : (15 : Nat) ≠ opX op := Ne.symm hx
  refine ⟨?_, ?_⟩ <;> simp [chip8_cpu_addr, upd, hx, hy, hx15]

/-- C2 counterexample: with y = 0xF (state `addrSt`: V0 = 5, VF = 7,
opcode 0x80F4 i.e. ADD V0,VF), the flag write precedes the addition, so
V0 receives 5 + carry = 5 instead of the claimed (5 + 7) mod 256 = 12. -/
theorem c2_counterexample :
    (chip8_cpu_addr addrSt 0x80F4).v 0 ≠ (addrSt.v 0 + addrSt.v 15) % 256 := by
  decide

/-- C2 witness: the amended theorem applied to ADD V0,V1 on `addrSt`. -/
theorem c2_witness :
    opX 0x8014 ≠ 15 ∧ opY 0x8014 ≠ 15 ∧
    ((chip8_cpu_addr addrSt 0x8014).v 15 =
        (if addrSt.v (opX 0x8014) + addrSt.v (opY 0x8014) > 255 then 1 else 0) ∧
      (chip8_cpu_addr addrSt 0x8014).v (opX 0x8014) =
        (addrSt.v (opX 0x8014) + addrSt.v (opY 0x8014)) % 256) :=
  ⟨by decide, by decide, c2_addr_flag_and_sum addrSt 0x8014 (by decide) (by decide)⟩

-- Reads of the bulk store/load folds

theorem storeFold_get (r0 : Nat → Nat) (i0 : Nat) (vv : Nat → Nat) :
    ∀ m k, k < m →
      ((List.range m).foldl (fun r j => upd r (i0 + j) (vv j)) r0) (i0 + k) = vv k := by
  intro m
  induction m with
  | zero => intro k hk; exact absurd hk (Nat.not_lt_zero k)
  | succ n ih =>
    intro k hk
    rw [List.range_succ, List.foldl_append, List.foldl_cons, List.foldl_nil]
    by_cases h : k = n
    · subst h; rw [upd_same]
    · rw [upd_ne _ _ _ _ (by omega), ih k (by omega)]

theorem loadFold_get (v0 ramf : Nat → Nat) (i0 : Nat) :
    ∀ m k, k < m →
      ((List.range m).foldl (fun f j => upd f j (ramf (i0 + j))) v0) k = ramf (i0 + k) := by
  intro m
  induction m with
  | zero => intro k hk; exact absurd hk (Nat.not_lt_zero k)
  | succ n ih =>
    intro k hk
    rw [List.range_succ, List.foldl_append, List.foldl_cons, List.foldl_nil]
    by_cases h : k = n
    · subst h; rw [upd_same]
    · rw [upd_ne _ _ _ _ h, ih k (by omega)]

/-- C3 (amended): LD [I],Vx advances I by x+1, so an immediately following
LD Vx,[I] reads memory[I+x+1 .. I+2x+1], not the bytes just stored, and the
round trip does not restore the registers; it does restore V0..Vx
identically provided I is first restored to its pre-store value between
the two instructions. -/
theorem c3_store_load_with_i_restored (s : Chip8) (op1 op2 : Nat)
    (hx : opX op2 = opX op1) (hb : s.i + opX op1 < 4096) :
    ∀ k : Fin 16, (k : Nat) ≤ opX op1 →
      (chip8_cpu_ldri { chip8_cpu_ldir s op1 with i := s.i } op2).v k = s.v k := by
  intro k hk
  show ((List.range (opX op2 + 1)).foldl
      (fun f j => upd f j ((chip8_cpu_ldir s op1).ram (s.i + j)))
      (chip8_cpu_ldir s op1).v) (k : Nat) = s.v k
  rw [loadFold_get _ _ _ _ _ (by omega)]
  show ((List.range (opX op1 + 1)).foldl
      (fun r j => upd r (s.i + j) (s.v j)) s.ram) (s.i + (k : Nat)) = s.v k
  rw [storeFold_get _ _ _ _ _ (by omega)]

/-- C3 counterexample: state `ldirSt` (I = 768, V0 = 5, ram all zero).
LD [I],V0 stores 5 at 768 and sets I = 769; the immediately following
LD V0,[I] then loads ram[769] = 0 into V0, so the round trip does not
restore V0 = 5. -/
theorem c3_counterexample :
    (chip8_cpu_ldri (chip8_cpu_ldir ldirSt 0xF055) 0xF065).v 0 = 0 ∧
    ldirSt.v 0 = 5 :=
  ⟨rfl, rfl⟩

/-- C3 witness: the amended round trip applied to `ldirSt` with x = 1. -/
theorem c3_witness :
    opX 0xF165 = opX 0xF155 ∧ ldirSt.i + opX 0xF155 < 4096 ∧
    (chip8_cpu_ldri { chip8_cpu_ldir ldirSt 0xF155 with i := ldirSt.i } 0xF165).v 1 =
      ldirSt.v 1 :=
  ⟨by decide, by decide,
    c3_store_load_with_i_restored ldirSt 0xF155 0xF165 (by decide) (by decide)
      ⟨1, by decide⟩ (by decide)⟩

/-- C4 (amended): SUB Vx,Vy stores (Vx - Vy) mod 256 into Vx and writes no
other register: in particular the claimed borrow flag VF = (Vx ≥ Vy) is
never written (VF changes only when x = 0xF, as the destination itself). -/
theorem c4_sub_no_flag (s : Chip8) (op : Nat)
    (hvx : s.v (opX op) < 256) (hvy : s.v (opY op) < 256) :
    (chip8_cpu_sub s op).v (opX op) =
      (s.v (opX op) + 256 - s.v (opY op)) % 256 ∧
    ∀ k : Fin 16, (k : Nat) ≠ opX op → (chip8_cpu_sub s op).v k = s.v k := by
  constructor
  · show upd s.v (opX op) (sub8 _ _) (opX op) = _
    rw [upd_same]
    unfold sub8
    omega
  · intro k hk
    exact upd_ne _ _ _ _ hk

/-- C4 counterexample: state `subSt` (V0 = 5, V1 = 3, VF = 0).  After
SUB V0,V1 the claim requires VF = 1 (since V0 ≥ V1), but the code never
writes the flag and VF stays 0. -/
theorem c4_counterexample :
    (chip8_cpu_sub subSt 0x8015).v 15 ≠ 1 ∧ subSt.v 0 ≥ subSt.v 1 := by
  decide

/-- C4 witness: the amended theorem applied to SUB V0,V1 on `subSt`. -/
theorem c4_witness :
    subSt.v (opX 0x8015) < 256 ∧ subSt.v (opY 0x8015) < 256 ∧
    ((chip8_cpu_sub subSt 0x8015).v (opX 0x8015) =
        (subSt.v (opX 0x8015) + 256 - subSt.v (opY 0x8015)) % 256 ∧
      ∀ k : Fin 16, (k : Nat) ≠ opX 0x8015 →
        (chip8_cpu_sub subSt 0x8015).v k = subSt.v k) :=
  ⟨by decide, by decide, c4_sub_no_flag subSt 0x8015 (by decide) (by decide)⟩

/-- C6: from any state with sp < 16 whose instruction at pc is CALL nnn,
running one `chip8_cycle` (which advances pc by 2 before dispatch, with an
input callback that makes no change) and then RET leaves pc at the address
immediately following the CALL and restores the pre-call stack pointer. -/
theorem c6_call_ret (s : Chip8) (ext : ExtIn)
    (hsp : s.sp < 16) (hpc : s.pc + 1 < 4096)
    (hop : (((((s.ram s.pc) <<< 8) ||| s.ram (s.pc + 1)) % 65536) &&& 0xF000) >>> 12 = 2) :
    ∃ t, chip8_cycle id ext s = Outcome.ok t ∧
      (chip8_cpu_ret t 0x00EE).pc = s.pc + 2 ∧
      (chip8_cpu_ret t 0x00EE).sp = s.sp := by
  refine ⟨chip8_cpu_call { s with pc := (s.pc + 2) % 65536 }
      ((((s.ram s.pc) <<< 8) ||| s.ram (s.pc + 1)) % 65536), ?_, ?_, ?_⟩
  · show chip8_exec ext ((((s.ram s.pc) <<< 8) ||| s.ram (s.pc + 1)) % 65536)
      { s with pc := (s.pc + 2) % 65536 } = _
    unfold chip8_exec
    rw [hop]
  · have h1 : ((s.sp + 1) % 256 + 255) % 256 = s.sp := by omega
    simp [chip8_cpu_ret, chip8_cpu_call, h1, upd_same]
    omega
  · have h1 : ((s.sp + 1) % 256 + 255) % 256 = s.sp := by omega
    simp [chip8_cpu_ret, chip8_cpu_call, h1]

/-- C6 witness: the theorem applied to `callSt`, whose ram holds the
opcode 0x2234 (CALL 0x234) at pc = 0x200 with sp = 0. -/
theorem c6_witness :
    callSt.sp < 16 ∧ callSt.pc + 1 < 4096 ∧
    (((((callSt.ram callSt.pc) <<< 8) ||| callSt.ram (callSt.pc + 1)) % 65536) &&& 0xF000) >>> 12 = 2 ∧
    (∃ t, chip8_cycle id ext0 callSt = Outcome.ok t ∧
      (chip8_cpu_ret t 0x00EE).pc = callSt.pc + 2 ∧
      (chip8_cpu_ret t 0x00EE).sp = callSt.sp) :=
  ⟨by decide, by decide, by decide,
    c6_call_ret callSt ext0 (by decide) (by decide) (by decide)⟩

/-- C7: after `chip8_reset` all sixteen registers, all sixteen stack
slots, sp, both timers, I and all 2048 display cells are zero, pc is
0x200, and every one of the 4096 ram bytes is unchanged. -/
theorem c7_reset_state (s : Chip8) :
    (∀ k : Fin 16, (chip8_reset s).v k = 0) ∧
    (∀ k : Fin 16, (chip8_reset s).stack k = 0) ∧
    (chip8_reset s).sp = 0 ∧
    (chip8_reset s).dt = 0 ∧
    (chip8_reset s).st = 0 ∧
    (chip8_reset s).i = 0 ∧
    (∀ p : Fin 2048, (chip8_reset s).screen p = 0) ∧
    (chip8_reset s).pc = 0x200 ∧
    (∀ a : Fin 4096, (chip8_reset s).ram a = s.ram a) :=
  ⟨fun _ => rfl, fun _ => rfl, rfl, rfl, rfl, rfl, fun _ => rfl, rfl, fun _ => rfl⟩

/-- C8 (amended): in the 0x8 sub-dispatch table, dispatching opcode `op`
aborts as a bad instruction (the error carrying exactly `op`) precisely
when its low nibble is one of the SEVEN unused slots 8, 9, A, B, C, D, F;
the other nine slots (LD Vx,Vy plus the eight arithmetic/logic/shift
operations) execute normally. -/
theorem c8_arith_bad_slots (ext : ExtIn) (s : Chip8) (op : Nat)
    (h8 : (op &&& 0xF000) >>> 12 = 8) :
    (chip8_exec ext op s = Outcome.bad op ↔
      (op &&& 0xF) ∈ ([8, 9, 10, 11, 12, 13, 15] : List Nat)) := by
  have h16 : op &&& 0xF < 16 := lt_of_le_of_lt Nat.and_le_right (by norm_num)
  unfold chip8_exec
  rw [h8]
  show chip8_cpu_arith s op = Outcome.bad op ↔ _
  unfold chip8_cpu_arith
  split <;> simp_all <;> omega

/-- C8 counterexample: the number of low-nibble slots of the 0x8 group
that dispatch to the bad-instruction handler is not six (it is seven:
slots 8-0xD and 0xF). -/
theorem c8_counterexample :
    ((List.range 16).filter
        (fun n => isBadOutcome (chip8_exec ext0 (0x8000 + n) chipZero))).length ≠ 6 := by
  decide

/-- C8 witness: the amended theorem applied to opcode 0x8008 (slot 8). -/
theorem c8_witness :
    (0x8008 &&& 0xF000) >>> 12 = 8 ∧
    (chip8_exec ext0 0x8008 chipZero = Outcome.bad 0x8008 ↔
      (0x8008 &&& 0xF) ∈ ([8, 9, 10, 11, 12, 13, 15] : List Nat)) :=
  ⟨by decide, c8_arith_bad_slots ext0 chipZero 0x8008 (by decide)⟩

-- Characterization of the draw loop (for coordinate registers other than VF)

theorem touchAll_nil (p : (Nat → Nat) × Nat) : touchAll p [] = p := rfl

theorem touchAll_cons (p : (Nat → Nat) × Nat) (a : Nat) (l : List Nat) :
    touchAll p (a :: l) = touchAll (touch p a) l := rfl

theorem touchAll_touchAll (p : (Nat → Nat) × Nat) (l1 l2 : List Nat) :
    touchAll (touchAll p l1) l2 = touchAll p (l1 ++ l2) :=
  (List.foldl_append touch p l1 l2).symm

theorem drwCell_eq (op : Nat) (hx : opX op ≠ 15) (hy : opY op ≠ 15)
    (t : Chip8) (i j byte : Nat) :
    drwCell t op i j byte =
      if byte &&& (0x80 >>> j) ≠ 0 then
        { t with
          v := upd t.v 15
            (touch (t.screen, t.v 15) (t.v (opX op) + j + (t.v (opY op) + i) * 64)).2,
          screen :=
            (touch (t.screen, t.v 15) (t.v (opX op) + j + (t.v (opY op) + i) * 64)).1 }
      else t := by
  have hxne : ∀ c : Nat, upd t.v 15 c (opX op) = t.v (opX op) :=
    fun c => upd_ne _ _ _ _ hx
  have hyne : ∀ c : Nat, upd t.v 15 c (opY op) = t.v (opY op) :=
    fun c => upd_ne _ _ _ _ hy
  by_cases hbit : byte &&& (0x80 >>> j) ≠ 0
  · by_cases hcol : t.screen (t.v (opX op) + j + (t.v (opY op) + i) * 64) ≠ 0
    · simp only [drwCell, touch, if_pos hbit, if_pos hcol, hxne, hyne]
    · simp only [drwCell, touch, if_pos hbit, if_neg hcol, hxne, hyne, upd_self]
  · simp only [drwCell, if_neg hbit]

theorem drwRowFold_eq (op : Nat) (hx : opX op ≠ 15) (hy : opY op ≠ 15) (i byte : Nat) :
    ∀ (js : List Nat) (t : Chip8),
      js.foldl (fun t2 j => drwCell t2 op i j byte) t =
        { t with
          v := upd t.v 15 (touchAll (t.screen, t.v 15)
                ((js.filter (fun j => byte &&& (0x80 >>> j) != 0)).map
                  (fun j => t.v (opX op) + j + (t.v (opY op) + i) * 64))).2,
          screen := (touchAll (t.screen, t.v 15)
                ((js.filter (fun j => byte &&& (0x80 >>> j) != 0)).map
                  (fun j => t.v (opX op) + j + (t.v (opY op) + i) * 64))).1 } := by
  intro js
  induction js with
  | nil =>
    intro t
    simp [touchAll, upd_self]
  | cons j js ih =>
    intro t
    rw [List.foldl_cons, drwCell_eq op hx hy t i j byte]
    by_cases hbit : byte &&& (0x80 >>> j) ≠ 0
    · have hbitb : (byte &&& (0x80 >>> j) != 0) = true := by
        simpa [bne_iff_ne] using hbit
      rw [if_pos hbit, ih]
      have hvx : ∀ c : Nat, upd t.v 15 c (opX op) = t.v (opX op) :=
        fun c => upd_ne _ _ _ _ hx
      have hvy : ∀ c : Nat, upd t.v 15 c (opY op) = t.v (opY op) :=
        fun c => upd_ne _ _ _ _ hy
      simp only [List.filter_cons, hbitb, if_true, List.map_cons, touchAll_cons,
        hvx, hvy, upd_same, upd_upd_same, Prod.mk.eta]
    · have hbitb : (byte &&& (0x80 >>> j) != 0) = false := by
        simp only [ne_eq, not_not] at hbit
        simp [hbit]
      rw [if_neg hbit, ih]
      simp only [List.filter_cons, hbitb, if_false, Bool.false_eq_true]

theorem drwRows_eq (op : Nat) (hx : opX op ≠ 15) (hy : opY op ≠ 15) :
    ∀ (n : Nat) (t : Chip8),
      (List.range n).foldl
        (fun t1 i =>
          (List.range 8).foldl (fun t2 j => drwCell t2 op i j (t1.ram (t1.i + i))) t1) t =
        { t with
          v := upd t.v 15 (touchAll (t.screen, t.v 15)
                (spriteTouches (t.v (opX op)) (t.v (opY op)) t.i t.ram n)).2,
          screen := (touchAll (t.screen, t.v 15)
                (spriteTouches (t.v (opX op)) (t.v (opY op)) t.i t.ram n)).1 } := by
  intro n
  induction n with
  | zero =>
    intro t
    simp [spriteTouches, touchAll, upd_self]
  | succ n ih =>
    intro t
    rw [show List.range (n + 1) = List.range n ++ [n] from List.range_succ n,
      List.foldl_append, ih, List.foldl_cons, List.foldl_nil]
    rw [drwRowFold_eq op hx hy]
    have hvx : ∀ c : Nat, upd t.v 15 c (opX op) = t.v (opX op) :=
      fun c => upd_ne _ _ _ _ hx
    have hvy : ∀ c : Nat, upd t.v 15 c (opY op) = t.v (opY op) :=
      fun c => upd_ne _ _ _ _ hy
    simp only [hvx, hvy, upd_same, upd_upd_same, Prod.mk.eta, touchAll_touchAll,
      spriteTouches, rowTouches]

theorem chip8_cpu_drw_eq (s : Chip8) (op : Nat)
    (hx : opX op ≠ 15) (hy : opY op ≠ 15) :
    chip8_cpu_drw s op =
      { s with
        v := upd s.v 15 (touchAll (s.screen, 0)
              (spriteTouches (s.v (opX op)) (s.v (opY op)) s.i s.ram (opN op))).2,
        screen := (touchAll (s.screen, 0)
              (spriteTouches (s.v (opX op)) (s.v (opY op)) s.i s.ram (opN op))).1 } := by
  unfold chip8_cpu_drw
  rw [drwRows_eq op hx hy]
  have hvx : ∀ c : Nat, upd s.v 15 c (opX op) = s.v (opX op) :=
    fun c => upd_ne _ _ _ _ hx
  have hvy : ∀ c : Nat, upd s.v 15 c (opY op) = s.v (opY op) :=
    fun c => upd_ne _ _ _ _ hy
  simp only [hvx, hvy, upd_same, upd_upd_same]

theorem touchAll_fst (l : List Nat) :
    ∀ (sc : Nat → Nat) (vf : Nat), l.Nodup →
      ∀ idx, (touchAll (sc, vf) l).1 idx =
        if idx ∈ l then (sc idx) ^^^ 1 else sc idx := by
  induction l with
  | nil =>
    intro sc vf _ idx
    simp [touchAll]
  | cons a l ih =>
    intro sc vf hnd idx
    obtain ⟨hna, hndl⟩ := List.nodup_cons.mp hnd
    rw [touchAll_cons,
      show touch (sc, vf) a = (upd sc a ((sc a) ^^^ 1), if sc a ≠ 0 then 1 else vf) from rfl,
      ih _ _ hndl idx]
    by_cases hmem : idx ∈ l
    · rw [if_pos hmem, if_pos (List.mem_cons_of_mem a hmem),
        upd_ne _ _ _ _ (fun h => hna (by rw [← h]; exact hmem))]
    · rw [if_neg hmem]
      by_cases he : idx = a
      · subst he
        rw [upd_same, if_pos (List.mem_cons_self idx l)]
      · rw [upd_ne _ _ _ _ he, if_neg (by simp [List.mem_cons, he, hmem])]

theorem touchAll_snd (l : List Nat) :
    ∀ (sc : Nat → Nat) (vf : Nat), l.Nodup →
      (touchAll (sc, vf) l).2 = if ∃ a ∈ l, sc a ≠ 0 then 1 else vf := by
  induction l with
  | nil =>
    intro sc vf _
    simp [touchAll]
  | cons a l ih =>
    intro sc vf hnd
    obtain ⟨hna, hndl⟩ := List.nodup_cons.mp hnd
    rw [touchAll_cons,
      show touch (sc, vf) a = (upd sc a ((sc a) ^^^ 1), if sc a ≠ 0 then 1 else vf) from rfl,
      ih _ _ hndl]
    have hcond : (∃ b ∈ l, upd sc a ((sc a) ^^^ 1) b ≠ 0) ↔ (∃ b ∈ l, sc b ≠ 0) := by
      constructor
      · rintro ⟨b, hb, hval⟩
        exact ⟨b, hb, by rwa [upd_ne _ _ _ _ (fun h => hna (by rw [← h]; exact hb))] at hval⟩
      · rintro ⟨b, hb, hval⟩
        exact ⟨b, hb, by rwa [upd_ne _ _ _ _ (fun h => hna (by rw [← h]; exact hb))]⟩
    rw [if_congr hcond rfl rfl]
    by_cases hex : ∃ b ∈ l, sc b ≠ 0
    · obtain ⟨b, hb, hval⟩ := hex
      rw [if_pos ⟨b, hb, hval⟩, if_pos ⟨b, List.mem_cons_of_mem a hb, hval⟩]
    · rw [if_neg hex]
      by_cases ha : sc a ≠ 0
      · rw [if_pos ha, if_pos ⟨a, List.mem_cons_self a l, ha⟩]
      · rw [if_neg ha, if_neg ?_]
        rintro ⟨b, hb, hval⟩
        rcases List.mem_cons.mp hb with h | h
        · exact ha (h ▸ hval)
        · exact hex ⟨b, h, hval⟩

theorem mem_rowTouches {vx vy byte i a : Nat} :
    a ∈ rowTouches vx vy byte i →
      ∃ j, j < 8 ∧ byte &&& (0x80 >>> j) ≠ 0 ∧ a = vx + j + (vy + i) * 64 := by
  intro h
  unfold rowTouches at h
  obtain ⟨j, hj, he⟩ := List.mem_map.mp h
  obtain ⟨hjr, hjp⟩ := List.mem_filter.mp hj
  exact ⟨j, List.mem_range.mp hjr, by simpa [bne_iff_ne] using hjp, he.symm⟩

theorem mem_spriteTouches {vx vy ii : Nat} {ram : Nat → Nat} :
    ∀ {n a}, a ∈ spriteTouches vx vy ii ram n →
      ∃ i j, i < n ∧ j < 8 ∧ a = vx + j + (vy + i) * 64 := by
  intro n
  induction n with
  | zero =>
    intro a h
    simp [spriteTouches] at h
  | succ n ih =>
    intro a h
    rw [spriteTouches] at h
    rcases List.mem_append.mp h with h1 | h2
    · obtain ⟨i, j, hi, hj, he⟩ := ih h1
      exact ⟨i, j, by omega, hj, he⟩
    · obtain ⟨j, hj, _, he⟩ := mem_rowTouches h2
      exact ⟨n, j, by omega, hj, he⟩

theorem rowTouches_nodup (vx vy byte i : Nat) : (rowTouches vx vy byte i).Nodup := by
  unfold rowTouches
  refine List.Nodup.map ?_ (List.Nodup.filter _ (List.nodup_range 8))
  intro a b h
  have h2 : vx + a + (vy + i) * 64 = vx + b + (vy + i) * 64 := h
  omega

theorem spriteTouches_nodup (vx vy ii : Nat) (ram : Nat → Nat) :
    ∀ n, (spriteTouches vx vy ii ram n).Nodup := by
  intro n
  induction n with
  | zero => simp [spriteTouches]
  | succ n ih =>
    rw [spriteTouches, List.nodup_append]
    refine ⟨ih, rowTouches_nodup _ _ _ _, ?_⟩
    intro a ha hb
    obtain ⟨i, j, hi, hj, he⟩ := mem_spriteTouches ha
    obtain ⟨j2, hj2, _, he2⟩ := mem_rowTouches hb
    omega

/-- C5 (amended): for coordinate registers other than the flag register
(x ≠ 0xF and y ≠ 0xF), CLS followed by DRW Vx,Vy,n followed by the
identical DRW (with all touched cells in bounds) returns the display to
all-zero, and the second draw ends with VF = 1 whenever the first draw set
at least one pixel. -/
theorem c5_cls_draw_draw (s : Chip8) (op : Nat)
    (hx : opX op ≠ 15) (hy : opY op ≠ 15)
    (hb : ∀ i, i < opN op → ∀ j, j < 8 →
        s.ram (s.i + i) &&& (0x80 >>> j) ≠ 0 →
        s.v (opX op) + j < 64 ∧ s.v (opY op) + i < 32) :
    (∀ idx, (chip8_cpu_drw (chip8_cpu_drw (chip8_cpu_cls s op) op) op).screen idx = 0) ∧
    ((∃ idx, (chip8_cpu_drw (chip8_cpu_cls s op) op).screen idx ≠ 0) →
      (chip8_cpu_drw (chip8_cpu_drw (chip8_cpu_cls s op) op) op).v 15 = 1) := by
  have hnd := spriteTouches_nodup (s.v (opX op)) (s.v (opY op)) s.i s.ram (opN op)
  set L := spriteTouches (s.v (opX op)) (s.v (opY op)) s.i s.ram (opN op) with hL
  have e1 : chip8_cpu_drw (chip8_cpu_cls s op) op =
      { s with
        v := upd s.v 15 (touchAll ((fun _ => 0), 0) L).2,
        screen := (touchAll ((fun _ => 0), 0) L).1 } :=
    chip8_cpu_drw_eq (chip8_cpu_cls s op) op hx hy
  have e2 : chip8_cpu_drw (chip8_cpu_drw (chip8_cpu_cls s op) op) op =
      { s with
        v := upd s.v 15 (touchAll ((touchAll ((fun _ => 0), 0) L).1, 0) L).2,
        screen := (touchAll ((touchAll ((fun _ => 0), 0) L).1, 0) L).1 } := by
    rw [e1, chip8_cpu_drw_eq _ op hx hy]
    have hvx : ∀ c : Nat, upd s.v 15 c (opX op) = s.v (opX op) :=
      fun c => upd_ne _ _ _ _ hx
    have hvy : ∀ c : Nat, upd s.v 15 c (opY op) = s.v (opY op) :=
      fun c => upd_ne _ _ _ _ hy
    simp only [hvx, hvy, upd_same, upd_upd_same]
  have hsc1 : ∀ idx, (touchAll ((fun _ => 0 : Nat → Nat), 0) L).1 idx =
      if idx ∈ L then 1 else 0 := by
    intro idx
    rw [touchAll_fst _ _ _ hnd idx]
    by_cases hm : idx ∈ L
    · simp [hm]
    · simp [hm]
  constructor
  · intro idx
    rw [e2]
    show (touchAll ((touchAll ((fun _ => 0), 0) L).1, 0) L).1 idx = 0
    rw [touchAll_fst _ _ _ hnd idx]
    simp only [hsc1]
    by_cases hm : idx ∈ L
    · simp [hm]
    · simp [hm]
  · rintro ⟨idx0, hne⟩
    rw [e1] at hne
    rw [e2]
    show upd s.v 15 (touchAll ((touchAll ((fun _ => 0), 0) L).1, 0) L).2 15 = 1
    rw [upd_same, touchAll_snd _ _ _ hnd, if_pos]
    have hne2 : (touchAll ((fun _ => 0 : Nat → Nat), 0) L).1 idx0 ≠ 0 := hne
    rw [hsc1 idx0] at hne2
    by_cases hm : idx0 ∈ L
    · refine ⟨idx0, hm, ?_⟩
      rw [hsc1 idx0, if_pos hm]
      simp
    · rw [if_neg hm] at hne2
      exact absurd rfl hne2

/-- C5 counterexample: with x = 0xF the claim fails even though every
touched cell is in bounds.  State `drwFSt` (all registers 0, one-row
sprite 0xC0 at I = 768) with opcode 0xDF01 (DRW VF,V0,1): the first draw
sets cells 0 and 1; during the second draw the collision at cell 0 sets
VF = 1, which shifts the coordinate register VF mid-draw, so the second
XOR lands on cell 1 and cell 2 instead, leaving cell 0 (and 2) set
instead of returning the display to all-zero. -/
theorem c5_counterexample :
    (chip8_cpu_drw (chip8_cpu_drw (chip8_cpu_cls drwFSt 0x00E0) 0xDF01) 0xDF01).screen 0 = 1 := by
  decide

/-- C5 witness: the amended theorem applied to `drwSt` with opcode 0xD011
(DRW V0,V1,1, sprite byte 0x80 at I = 768, V0 = 3, V1 = 2). -/
theorem c5_witness :
    opX 0xD011 ≠ 15 ∧ opY 0xD011 ≠ 15 ∧
    (∀ i, i < opN 0xD011 → ∀ j, j < 8 →
        drwSt.ram (drwSt.i + i) &&& (0x80 >>> j) ≠ 0 →
        drwSt.v (opX 0xD011) + j < 64 ∧ drwSt.v (opY 0xD011) + i < 32) ∧
    ((∀ idx,
        (chip8_cpu_drw (chip8_cpu_drw (chip8_cpu_cls drwSt 0xD011) 0xD011) 0xD011).screen idx = 0) ∧
      ((∃ idx, (chip8_cpu_drw (chip8_cpu_cls drwSt 0xD011) 0xD011).screen idx ≠ 0) →
        (chip8_cpu_drw (chip8_cpu_drw (chip8_cpu_cls drwSt 0xD011) 0xD011) 0xD011).v 15 = 1)) :=
  ⟨by decide, by decide, by decide,
    c5_cls_draw_draw drwSt 0xD011 (by decide) (by decide) (by decide)⟩

-- Display invariant infrastructure

theorem foldl_preserve {α : Type} (P : Chip8 → Prop) (f : Chip8 → α → Chip8)
    (hf : ∀ t a, P t → P (f t a)) :
    ∀ (l : List α) (t : Chip8), P t → P (l.foldl f t) := by
  intro l
  induction l with
  | nil => intro t ht; exact ht
  | cons a l ih => intro t ht; exact ih _ (hf t a ht)

theorem displayInv_toggle (sc : Nat → Nat) (idx : Nat)
    (h : ∀ p : Fin 2048, sc p.val = 0 ∨ sc p.val = 1) :
    ∀ p : Fin 2048,
      upd sc idx ((sc idx) ^^^ 1) p.val = 0 ∨ upd sc idx ((sc idx) ^^^ 1) p.val = 1 := by
  intro p
  by_cases he : p.val = idx
  · have hp := h p
    rw [he] at hp
    rw [he, upd_same]
    rcases hp with h0 | h1
    · rw [h0]
      right
      rfl
    · rw [h1]
      left
      rfl
  · rw [upd_ne _ _ _ _ he]
    exact h p

theorem drwCell_displayInv (op : Nat) (i j byte : Nat) (t : Chip8)
    (h : DisplayInv t) : DisplayInv (drwCell t op i j byte) := by
  unfold drwCell
  by_cases hbit : byte &&& (0x80 >>> j) ≠ 0
  · simp only [if_pos hbit]
    by_cases hcol : t.screen (t.v (opX op) + j + (t.v (opY op) + i) * 64) ≠ 0
    · simp only [if_pos hcol]
      exact displayInv_toggle _ _ h
    · simp only [if_neg hcol]
      exact displayInv_toggle _ _ h
  · simp only [if_neg hbit]
    exact h

theorem drw_displayInv (s : Chip8) (op : Nat) (h : DisplayInv s) :
    DisplayInv (chip8_cpu_drw s op) := by
  unfold chip8_cpu_drw
  refine foldl_preserve DisplayInv _ ?_ _ _ ?_
  · intro t a ht
    refine foldl_preserve DisplayInv _ ?_ _ _ ht
    intro t2 b ht2
    exact drwCell_displayInv _ _ _ _ _ ht2
  · exact h

theorem ldk_frame :
    ∀ (polls : List (Nat → Nat)) (s : Chip8) (op : Nat) (t : Chip8),
      chip8_cpu_ldk polls s op = some t →
      t.ram = s.ram ∧ t.screen = s.screen ∧ t.stack = s.stack ∧
      t.i = s.i ∧ t.dt = s.dt ∧ t.st = s.st ∧ t.sp = s.sp ∧ t.pc = s.pc ∧
      (∀ k, k ≠ opX op → t.v k = s.v k) ∧
      (∃ idx, findKeyFrom t.keys 16 0 = some idx ∧ t.v (opX op) = idx) := by
  intro polls
  induction polls with
  | nil =>
    intro s op t h
    exact absurd h (by simp [chip8_cpu_ldk])
  | cons p ps ih =>
    intro s op t h
    rw [chip8_cpu_ldk] at h
    split at h
    · rename_i idx heq
      cases h
      refine ⟨rfl, rfl, rfl, rfl, rfl, rfl, rfl, rfl, ?_, idx, heq, upd_same _ _ _⟩
      intro k hk
      exact upd_ne _ _ _ _ hk
    · obtain ⟨hram, hscr, hstk, hi, hdt, hst, hsp, hpc, hv, hex⟩ := ih _ op t h
      exact ⟨hram, hscr, hstk, hi, hdt, hst, hsp, hpc, hv, hex⟩

/-- C9: the display invariant (every one of the 2048 cells is 0 or 1)
holds at creation and is preserved by every dispatched operation that
completes normally: CLS rewrites every cell to 0, DRW only XORs cells
with 1, and no other handler writes the screen at all. -/
theorem c9_display_invariant :
    DisplayInv chip8_create ∧
    ∀ (ext : ExtIn) (op : Nat) (s t : Chip8),
      chip8_exec ext op s = Outcome.ok t → DisplayInv s → DisplayInv t := by
  constructor
  · intro p
    exact Or.inl rfl
  · intro ext op s t hok hinv
    unfold chip8_exec at hok
    split at hok
    all_goals try (cases hok <;> exact hinv)
    -- remaining: the 00--, 8--, DXYN, EX-- and FX-- groups
    · unfold chip8_cpu_func at hok
      split at hok
      all_goals try (cases hok <;> exact hinv)
      cases hok
      intro p
      exact Or.inl rfl
    · unfold chip8_cpu_arith at hok
      split at hok
      all_goals cases hok <;> exact hinv
    · cases hok
      exact drw_displayInv s op hinv
    · unfold chip8_cpu_keygrp at hok
      split at hok
      all_goals cases hok <;> exact hinv
    · unfold chip8_cpu_vx at hok
      split at hok
      all_goals try (cases hok <;> exact hinv)
      -- the FX0A (LD Vx,K) case
      split at hok
      · rename_i u heq
        have hfr := (ldk_frame ext.polls s op u heq).2.1
        cases hok
        intro p
        rw [hfr]
        exact hinv p
      · cases hok

/-- C9 witness: the preservation theorem applied to CLS on `chipZero`. -/
theorem c9_witness :
    DisplayInv chipZero ∧ DisplayInv (chip8_cpu_cls chipZero 0x00E0) :=
  ⟨fun _ => Or.inl rfl,
    c9_display_invariant.2 ext0 0x00E0 chipZero (chip8_cpu_cls chipZero 0x00E0)
      rfl (fun _ => Or.inl rfl)⟩

theorem findKeyFrom_spec (keys : Nat → Nat) :
    ∀ (count start idx : Nat), findKeyFrom keys count start = some idx →
      start ≤ idx ∧ idx < start + count ∧ keys idx ≠ 0 ∧
      ∀ j, start ≤ j → j < idx → keys j = 0 := by
  intro count
  induction count with
  | zero =>
    intro start idx h
    exact absurd h (by simp [findKeyFrom])
  | succ c ih =>
    intro start idx h
    rw [findKeyFrom] at h
    by_cases hk : keys start ≠ 0
    · rw [if_pos hk] at h
      cases h
      exact ⟨le_refl _, by omega, hk, fun j h1 h2 => absurd h2 (by omega)⟩
    · rw [if_neg hk] at h
      obtain ⟨h1, h2, h3, h4⟩ := ih (start + 1) idx h
      simp only [ne_eq, not_not] at hk
      refine ⟨by omega, by omega, h3, ?_⟩
      intro j hj1 hj2
      by_cases hjs : j = start
      · rw [hjs]
        exact hk
      · exact h4 j (by omega) hj2

/-- C10 (amended): whenever LD Vx,K completes, Vx holds the smallest index
whose key is pressed in the final keypad poll (the snapshot the callback
left in `keys`), and no machine state other than Vx and the keys array
(overwritten by every poll of the input callback) is modified. -/
theorem c10_key_wait (polls : List (Nat → Nat)) (s : Chip8) (op : Nat) (t : Chip8)
    (h : chip8_cpu_ldk polls s op = some t) :
    (t.keys (t.v (opX op)) ≠ 0 ∧ ∀ j, j < t.v (opX op) → t.keys j = 0) ∧
    (∀ k, k ≠ opX op → t.v k = s.v k) ∧
    t.ram = s.ram ∧ t.screen = s.screen ∧ t.stack = s.stack ∧ t.i = s.i ∧
    t.dt = s.dt ∧ t.st = s.st ∧ t.sp = s.sp ∧ t.pc = s.pc := by
  obtain ⟨hram, hscr, hstk, hi, hdt, hst, hsp, hpc, hv, idx, hfind, hvx⟩ :=
    ldk_frame polls s op t h
  obtain ⟨_, _, hkey, hmin⟩ := findKeyFrom_spec t.keys 16 0 idx hfind
  refine ⟨⟨by rw [hvx]; exact hkey, ?_⟩, hv, hram, hscr, hstk, hi, hdt, hst, hsp, hpc⟩
  intro j hj
  rw [hvx] at hj
  exact hmin j (Nat.zero_le j) hj

/-- C10 counterexample: LD V0,K on `chipZero` (all keys up) with a single
poll `pollA` in which key 3 is pressed: the instruction completes with
keys[3] = 1 although keys[3] was 0 before, so machine state other than Vx
(namely the keys array, rewritten by the poll) is modified. -/
theorem c10_counterexample :
    (chip8_cpu_ldk [pollA] chipZero 0xF00A).map (fun u => u.keys 3) = some 1 ∧
    chipZero.keys 3 = 0 :=
  ⟨rfl, rfl⟩

/-- C10 witness: the amended theorem applied to the completed run of
LD V0,K from `chipZero` on the single poll `pollA`. -/
theorem c10_witness :
    chip8_cpu_ldk [pollA] chipZero 0xF00A = some ldkRes ∧
    ldkRes.keys (ldkRes.v (opX 0xF00A)) ≠ 0 :=
  ⟨rfl, ((c10_key_wait [pollA] chipZero 0xF00A ldkRes rfl).1).1⟩
